import Mathlib

/-!
Shallow embedding of the bpfman-hacks per-process statistics eBPF programs.

Two source files are modelled:
  * `src/stats/bpf/stats.c`    — plain hash map (`BPF_MAP_TYPE_HASH`, 1024
    entries); namespace `Stats` below.  An insert into a full map is rejected.
  * `src/stats/bpf/stats-v2.c` — LRU hash map (`BPF_MAP_TYPE_LRU_HASH`, 1024
    entries); namespace `StatsV2` below.  An insert into a full map evicts the
    least-recently-touched entry.

The eBPF map is modelled as an association list of `(pid, stats_t)` pairs.
For the LRU variant the list is kept in recency order: the head is the
most-recently-touched entry, the last element is the least-recently-touched
one, so eviction removes the last element.  64-bit counters are modelled as
`Nat` with arithmetic taken `% 2^64`, matching `__u64` increment semantics.
-/

def U64 : Nat := 2 ^ 64

/-- Embedding of `struct stats_t` (identical in both source files). -/
structure stats_t where
  context_switches : Nat
  major_faults : Nat
  minor_faults : Nat
deriving Repr, DecidableEq

/-- The zero-initialised record `zero = {}` used by `get_or_init_stats`. -/
def stats_zero : stats_t := ⟨0, 0, 0⟩

/-- The map contents: association list from 32-bit pid to its record. -/
abbrev StatsMap := List (Nat × stats_t)

/-- Embedding of `bpf_map_lookup_elem`: first entry with the given key. -/
def map_lookup : StatsMap → Nat → Option stats_t
  | [], _ => none
  | (k, v) :: rest, p => if k = p then some v else map_lookup rest p

/-- Remove every entry with the given key (helper for the LRU model). -/
def map_remove : StatsMap → Nat → StatsMap
  | [], _ => []
  | (k, v) :: rest, p =>
    if k = p then map_remove rest p else (k, v) :: map_remove rest p

/-- Embedding of a write through the pointer returned by
`bpf_map_lookup_elem` (e.g. `stats->context_switches++`): the value stored
under the key is replaced in place, no recency change. -/
def write_back : StatsMap → Nat → stats_t → StatsMap
  | [], _, _ => []
  | (k, s) :: rest, p, v =>
    if k = p then (p, v) :: write_back rest p v else (k, s) :: write_back rest p v

/-- Drop the least-recently-touched (last) entry of a recency-ordered map. -/
def evict_last : StatsMap → StatsMap
  | [] => []
  | [_] => []
  | e :: rest => e :: evict_last rest

/-- Key of the least-recently-touched (last) entry, if any. -/
def last_key : StatsMap → Option Nat
  | [] => none
  | [e] => some e.1
  | _ :: rest => last_key rest

/-- Keys of a map, in order. -/
def map_keys (m : StatsMap) : List Nat := m.map Prod.fst

/-- The `context_switches` field after `stats->context_switches++` (u64). -/
def bump_cs (s : stats_t) : stats_t :=
  { s with context_switches := (s.context_switches + 1) % U64 }

/-- The record after `stats->major_faults++` (u64). -/
def bump_major (s : stats_t) : stats_t :=
  { s with major_faults := (s.major_faults + 1) % U64 }

/-- The record after `stats->minor_faults++` (u64). -/
def bump_minor (s : stats_t) : stats_t :=
  { s with minor_faults := (s.minor_faults + 1) % U64 }

/-- Embedding of `struct trace_event_raw_sched_switch` (only the fields the
program reads). -/
structure trace_event_raw_sched_switch where
  prev_pid : Nat
  next_pid : Nat
deriving Repr, DecidableEq

/-- Embedding of `struct trace_event_raw_page_fault_user` from stats-v2.c. -/
structure trace_event_raw_page_fault_user where
  common_type : Nat
  common_flags : Nat
  common_preempt_count : Nat
  common_pid : Nat
  address : Nat
  ip : Nat
  error_code : Nat
deriving Repr, DecidableEq

namespace Stats

/-- `max_entries` of `stats_map` in stats.c. -/
def max_entries : Nat := 1024

/-- Embedding of `bpf_map_update_elem(&stats_map, &pid, &zero, BPF_ANY)` on a
`BPF_MAP_TYPE_HASH` map: overwrite if the key exists, insert if there is
room, otherwise reject (the C code ignores the returned error). -/
def bpf_map_update_elem (m : StatsMap) (k : Nat) (v : stats_t) : StatsMap :=
  if (map_lookup m k).isSome then write_back m k v
  else if m.length < max_entries then (k, v) :: m
  else m

/-- Embedding of `get_or_init_stats` from stats.c: lookup; on miss insert a
zero record and look up again; return the result of that second lookup. -/
def get_or_init_stats (m : StatsMap) (pid : Nat) : Option stats_t × StatsMap :=
  match map_lookup m pid with
  | some s => (some s, m)
  | none =>
    let m1 := bpf_map_update_elem m pid stats_zero
    (map_lookup m1 pid, m1)

/-- One per-pid block of `count_context_switches`:
`stats = get_or_init_stats(pid); if (stats) stats->context_switches++;`. -/
def tally_switch (m : StatsMap) (pid : Nat) : StatsMap :=
  match get_or_init_stats m pid with
  | (some s, m1) => write_back m1 pid (bump_cs s)
  | (none, m1) => m1

/-- Embedding of `count_context_switches` from stats.c: a null context is a
no-op returning 0; otherwise tally `prev_pid`, then `next_pid`, return 0. -/
def count_context_switches (m : StatsMap)
    (ctx : Option trace_event_raw_sched_switch) : Nat × StatsMap :=
  match ctx with
  | none => (0, m)
  | some e => (0, tally_switch (tally_switch m e.prev_pid) e.next_pid)

end Stats

namespace StatsV2

/-- `max_entries` of `stats_map` in stats-v2.c. -/
def max_entries : Nat := 1024

/-- A successful lookup on a `BPF_MAP_TYPE_LRU_HASH` map marks the entry as
most recently used: move it to the front of the recency order. -/
def lru_touch (m : StatsMap) (pid : Nat) : StatsMap :=
  match map_lookup m pid with
  | some s => (pid, s) :: map_remove m pid
  | none => m

/-- Embedding of `bpf_map_update_elem` with `BPF_ANY` on a
`BPF_MAP_TYPE_LRU_HASH` map: the written key becomes most recently used; if
the map is full and the key is new, the least-recently-used entry is
evicted. -/
def bpf_map_update_elem (m : StatsMap) (k : Nat) (v : stats_t) : StatsMap :=
  let m1 := map_remove m k
  if m1.length < max_entries then (k, v) :: m1
  else (k, v) :: evict_last m1

/-- Embedding of `get_or_init_stats` from stats-v2.c (same C source as the
stats.c version, but running against the LRU map). -/
def get_or_init_stats (m : StatsMap) (pid : Nat) : Option stats_t × StatsMap :=
  match map_lookup m pid with
  | some s => (some s, lru_touch m pid)
  | none =>
    let m1 := bpf_map_update_elem m pid stats_zero
    match map_lookup m1 pid with
    | some s => (some s, lru_touch m1 pid)
    | none => (none, m1)

/-- One per-pid block of `count_context_switches` from stats-v2.c. -/
def tally_switch (m : StatsMap) (pid : Nat) : StatsMap :=
  match get_or_init_stats m pid with
  | (some s, m1) => write_back m1 pid (bump_cs s)
  | (none, m1) => m1

/-- Embedding of `count_context_switches` from stats-v2.c. -/
def count_context_switches (m : StatsMap)
    (ctx : Option trace_event_raw_sched_switch) : Nat × StatsMap :=
  match ctx with
  | none => (0, m)
  | some e => (0, tally_switch (tally_switch m e.prev_pid) e.next_pid)

/-- Embedding of `count_page_faults` from stats-v2.c.  `pid` models the
ambient `bpf_get_current_pid_tgid() >> 32` of the faulting process.  A null
context is a no-op returning 0; a missing record is a silent no-op; else
error-code bit 0 selects which fault counter is incremented. -/
def count_page_faults (m : StatsMap) (pid : Nat)
    (ctx : Option trace_event_raw_page_fault_user) : Nat × StatsMap :=
  match ctx with
  | none => (0, m)
  | some e =>
    match get_or_init_stats m pid with
    | (none, m1) => (0, m1)
    | (some s, m1) =>
      if e.error_code % 2 = 1 then (0, write_back m1 pid (bump_minor s))
      else (0, write_back m1 pid (bump_major s))

end StatsV2

/-- Every record currently in the map has both fault counters at zero. -/
def faults_zero (m : StatsMap) : Prop :=
  ∀ e ∈ m, e.2.major_faults = 0 ∧ e.2.minor_faults = 0

/-- A table holding `n` distinct pids `0 .. n-1`, all zero records; the pid
`0` entry is last, i.e. least recently touched.  Used to build concrete
at-capacity tables. -/
def mkTable : Nat → StatsMap
  | 0 => []
  | n + 1 => (n, stats_zero) :: mkTable n

/-- The table after `n` successive page-fault events with error-code bit 0
set, all for current pid 7, starting from the empty table. -/
def iterPF : Nat → StatsMap
  | 0 => []
  | n + 1 =>
    (StatsV2.count_page_faults (iterPF n) 7 (some ⟨0, 0, 0, 0, 0, 0, 1⟩)).2

/-- Each counter either did not decrease or was so close to `2^64` that the
64-bit increment wrapped. -/
def mono_or_wrap (s s' : stats_t) : Prop :=
  (s.context_switches ≤ s'.context_switches ∨ U64 ≤ s.context_switches + 2) ∧
  (s.major_faults ≤ s'.major_faults ∨ U64 ≤ s.major_faults + 2) ∧
  (s.minor_faults ≤ s'.minor_faults ∨ U64 ≤ s.minor_faults + 2)

/-! ### Basic lemmas about the map primitives -/

@[simp]
theorem map_keys_nil : map_keys [] = [] := rfl

@[simp]
theorem map_keys_cons (k : Nat) (s : stats_t) (rest : StatsMap) :
    map_keys ((k, s) :: rest) = k :: map_keys rest := rfl

theorem lookup_write_back_self (m : StatsMap) (p : Nat) (v : stats_t)
    (h : (map_lookup m p).isSome) :
    map_lookup (write_back m p v) p = some v := by
  induction m with
  | nil => simp [map_lookup] at h
  | cons e rest ih =>
    obtain ⟨k, s⟩ := e
    by_cases hk : k = p
    · simp [write_back, map_lookup, hk]
    · simp only [map_lookup, if_neg hk] at h
      simp [write_back, map_lookup, hk, ih h]

theorem write_back_absent (m : StatsMap) (p : Nat) (v : stats_t)
    (h : map_lookup m p = none) :
    write_back m p v = m := by
  induction m with
  | nil => rfl
  | cons e rest ih =>
    obtain ⟨k, s⟩ := e
    by_cases hk : k = p
    · simp [map_lookup, hk] at h
    · simp only [map_lookup, if_neg hk] at h
      simp [write_back, hk, ih h]

theorem lookup_write_back_ne (m : StatsMap) (p q : Nat) (v : stats_t)
    (h : q ≠ p) :
    map_lookup (write_back m p v) q = map_lookup m q := by
  induction m with
  | nil => rfl
  | cons e rest ih =>
    obtain ⟨k, s⟩ := e
    by_cases hk : k = p
    · subst hk
      simp [write_back, map_lookup, Ne.symm h, ih]
    · simp [write_back, map_lookup, hk, ih]

theorem keys_write_back (m : StatsMap) (p : Nat) (v : stats_t) :
    map_keys (write_back m p v) = map_keys m := by
  induction m with
  | nil => rfl
  | cons e rest ih =>
    obtain ⟨k, s⟩ := e
    by_cases hk : k = p
    · subst hk
      simp [write_back, ih]
    · simp [write_back, hk, ih]

theorem length_write_back (m : StatsMap) (p : Nat) (v : stats_t) :
    (write_back m p v).length = m.length := by
  induction m with
  | nil => rfl
  | cons e rest ih =>
    obtain ⟨k, s⟩ := e
    by_cases hk : k = p <;> simp [write_back, hk, ih]

theorem mem_write_back (m : StatsMap) (p : Nat) (v : stats_t) (e : Nat × stats_t)
    (h : e ∈ write_back m p v) :
    e ∈ m ∨ e = (p, v) := by
  induction m with
  | nil => simp [write_back] at h
  | cons hd rest ih =>
    obtain ⟨k, s⟩ := hd
    by_cases hk : k = p
    · simp only [write_back, if_pos hk, List.mem_cons] at h
      rcases h with h | h
      · exact Or.inr h
      · rcases ih h with h' | h'
        · exact Or.inl (List.mem_cons_of_mem _ h')
        · exact Or.inr h'
    · simp only [write_back, if_neg hk, List.mem_cons] at h
      rcases h with h | h
      · exact Or.inl (by simp [h])
      · rcases ih h with h' | h'
        · exact Or.inl (List.mem_cons_of_mem _ h')
        · exact Or.inr h'

theorem lookup_remove_self (m : StatsMap) (p : Nat) :
    map_lookup (map_remove m p) p = none := by
  induction m with
  | nil => rfl
  | cons e rest ih =>
    obtain ⟨k, s⟩ := e
    by_cases hk : k = p <;> simp [map_remove, map_lookup, hk, ih]

theorem lookup_remove_ne (m : StatsMap) (p q : Nat) (h : q ≠ p) :
    map_lookup (map_remove m p) q = map_lookup m q := by
  induction m with
  | nil => rfl
  | cons e rest ih =>
    obtain ⟨k, s⟩ := e
    by_cases hk : k = p
    · subst hk
      simp [map_remove, map_lookup, Ne.symm h, ih]
    · simp [map_remove, map_lookup, hk, ih]

theorem remove_absent (m : StatsMap) (p : Nat) (h : map_lookup m p = none) :
    map_remove m p = m := by
  induction m with
  | nil => rfl
  | cons e rest ih =>
    obtain ⟨k, s⟩ := e
    by_cases hk : k = p
    · simp [map_lookup, hk] at h
    · simp only [map_lookup, if_neg hk] at h
      simp [map_remove, hk, ih h]

theorem length_remove_le (m : StatsMap) (p : Nat) :
    (map_remove m p).length ≤ m.length := by
  induction m with
  | nil => simp [map_remove]
  | cons e rest ih =>
    obtain ⟨k, s⟩ := e
    by_cases hk : k = p <;> simp [map_remove, hk] <;> omega

theorem length_remove_lt (m : StatsMap) (p : Nat)
    (h : (map_lookup m p).isSome) :
    (map_remove m p).length < m.length := by
  induction m with
  | nil => simp [map_lookup] at h
  | cons e rest ih =>
    obtain ⟨k, s⟩ := e
    by_cases hk : k = p
    · have := length_remove_le rest p
      simp [map_remove, hk]
      omega
    · simp only [map_lookup, if_neg hk] at h
      have := ih h
      simp [map_remove, hk]
      omega

theorem not_mem_keys_remove (m : StatsMap) (p : Nat) :
    p ∉ map_keys (map_remove m p) := by
  induction m with
  | nil => simp [map_remove]
  | cons e rest ih =>
    obtain ⟨k, s⟩ := e
    by_cases hk : k = p
    · simpa [map_remove, hk] using ih
    · simp [map_remove, hk, List.mem_cons]
      exact ⟨fun hh => hk hh.symm, ih⟩

theorem mem_keys_remove (m : StatsMap) (p q : Nat)
    (h : q ∈ map_keys (map_remove m p)) : q ∈ map_keys m := by
  induction m with
  | nil => simp [map_remove] at h
  | cons e rest ih =>
    obtain ⟨k, s⟩ := e
    by_cases hk : k = p
    · simp only [map_remove, if_pos hk] at h
      rw [map_keys_cons]
      exact List.mem_cons_of_mem _ (ih h)
    · simp only [map_remove, if_neg hk, map_keys_cons, List.mem_cons] at h
      rw [map_keys_cons]
      rcases h with h | h
      · exact List.mem_cons.2 (Or.inl h)
      · exact List.mem_cons_of_mem _ (ih h)

theorem nodup_keys_remove (m : StatsMap) (p : Nat)
    (h : (map_keys m).Nodup) : (map_keys (map_remove m p)).Nodup := by
  induction m with
  | nil => simp [map_remove]
  | cons e rest ih =>
    obtain ⟨k, s⟩ := e
    simp only [map_keys_cons, List.nodup_cons] at h
    by_cases hk : k = p
    · simp only [map_remove, if_pos hk]
      exact ih h.2
    · simp only [map_remove, if_neg hk, map_keys_cons, List.nodup_cons]
      refine ⟨fun hh => h.1 (mem_keys_remove rest p k hh), ih h.2⟩

theorem mem_remove (m : StatsMap) (p : Nat) (e : Nat × stats_t)
    (h : e ∈ map_remove m p) : e ∈ m := by
  induction m with
  | nil => simp [map_remove] at h
  | cons hd rest ih =>
    obtain ⟨k, s⟩ := hd
    by_cases hk : k = p
    · simp only [map_remove, if_pos hk] at h
      exact List.mem_cons_of_mem _ (ih h)
    · simp only [map_remove, if_neg hk, List.mem_cons] at h
      rcases h with h | h
      · simp [h]
      · exact List.mem_cons_of_mem _ (ih h)

theorem lookup_mem (m : StatsMap) (p : Nat) (s : stats_t)
    (h : map_lookup m p = some s) : (p, s) ∈ m := by
  induction m with
  | nil => simp [map_lookup] at h
  | cons e rest ih =>
    obtain ⟨k, v⟩ := e
    by_cases hk : k = p
    · subst hk
      have h' : v = s := by simpa [map_lookup] using h
      subst h'
      exact List.mem_cons_self _ _
    · simp only [map_lookup, if_neg hk] at h
      exact List.mem_cons_of_mem _ (ih h)

theorem lookup_none_iff (m : StatsMap) (p : Nat) :
    map_lookup m p = none ↔ p ∉ map_keys m := by
  induction m with
  | nil => simp [map_lookup]
  | cons e rest ih =>
    obtain ⟨k, v⟩ := e
    by_cases hk : k = p
    · subst hk
      simp [map_lookup]
    · simp [map_lookup, hk, List.mem_cons, ih, Ne.symm hk]

theorem last_key_eq_none (m : StatsMap) : last_key m = none ↔ m = [] := by
  induction m with
  | nil => simp [last_key]
  | cons e rest ih =>
    cases rest with
    | nil => simp [last_key]
    | cons e2 rest2 => simp [last_key, ih]

theorem last_key_mem (m : StatsMap) (vk : Nat) (h : last_key m = some vk) :
    vk ∈ map_keys m := by
  induction m with
  | nil => simp [last_key] at h
  | cons e rest ih =>
    obtain ⟨k, s⟩ := e
    cases rest with
    | nil =>
      simp only [last_key, Option.some.injEq] at h
      simp [h]
    | cons e2 rest2 =>
      simp only [last_key] at h
      rw [map_keys_cons]
      exact List.mem_cons_of_mem _ (ih h)

theorem length_evict (m : StatsMap) : (evict_last m).length = m.length - 1 := by
  induction m with
  | nil => simp [evict_last]
  | cons e rest ih =>
    cases rest with
    | nil => simp [evict_last]
    | cons e2 rest2 =>
      simp only [evict_last, List.length_cons] at ih ⊢
      omega

theorem mem_evict (m : StatsMap) (e : Nat × stats_t)
    (h : e ∈ evict_last m) : e ∈ m := by
  induction m with
  | nil => simp [evict_last] at h
  | cons hd rest ih =>
    cases rest with
    | nil => simp [evict_last] at h
    | cons e2 rest2 =>
      simp only [evict_last, List.mem_cons] at h
      rcases h with h | h
      · simp [h]
      · exact List.mem_cons_of_mem _ (ih h)

theorem mem_keys_evict (m : StatsMap) (q : Nat)
    (h : q ∈ map_keys (evict_last m)) : q ∈ map_keys m := by
  induction m with
  | nil => simp [evict_last] at h
  | cons hd rest ih =>
    obtain ⟨k, s⟩ := hd
    cases rest with
    | nil => simp [evict_last] at h
    | cons e2 rest2 =>
      simp only [evict_last, map_keys_cons, List.mem_cons] at h
      rw [map_keys_cons]
      rcases h with h | h
      · exact List.mem_cons.2 (Or.inl h)
      · exact List.mem_cons_of_mem _ (ih h)

theorem nodup_keys_evict (m : StatsMap)
    (h : (map_keys m).Nodup) : (map_keys (evict_last m)).Nodup := by
  induction m with
  | nil => simp [evict_last]
  | cons hd rest ih =>
    obtain ⟨k, s⟩ := hd
    cases rest with
    | nil => simp [evict_last]
    | cons e2 rest2 =>
      simp only [map_keys_cons, List.nodup_cons] at h
      simp only [evict_last, map_keys_cons, List.nodup_cons]
      exact ⟨fun hh => h.1 (mem_keys_evict _ _ hh), ih h.2⟩

theorem lookup_evict_ne_last (m : StatsMap) (vk q : Nat)
    (hl : last_key m = some vk) (h : q ≠ vk) :
    map_lookup (evict_last m) q = map_lookup m q := by
  induction m with
  | nil => simp [last_key] at hl
  | cons hd rest ih =>
    obtain ⟨k, s⟩ := hd
    cases rest with
    | nil =>
      simp only [last_key, Option.some.injEq] at hl
      subst hl
      simp [evict_last, map_lookup, Ne.symm h]
    | cons e2 rest2 =>
      simp only [last_key] at hl
      simp [evict_last, map_lookup, ih hl]

theorem lookup_evict_last (m : StatsMap) (vk : Nat)
    (hn : (map_keys m).Nodup) (hl : last_key m = some vk) :
    map_lookup (evict_last m) vk = none := by
  induction m with
  | nil => simp [last_key] at hl
  | cons hd rest ih =>
    obtain ⟨k, s⟩ := hd
    cases rest with
    | nil => simp [evict_last, map_lookup]
    | cons e2 rest2 =>
      simp only [last_key] at hl
      simp only [map_keys_cons, List.nodup_cons] at hn
      have hkvk : k ≠ vk := fun hh => hn.1 (hh ▸ last_key_mem _ _ hl)
      simp [evict_last, map_lookup, hkvk, ih hn.2 hl]

/-! ### Characterisation lemmas for the stats.c (plain hash) variant -/

namespace Stats

theorem goi_hit (m : StatsMap) (p : Nat) (s : stats_t)
    (h : map_lookup m p = some s) :
    get_or_init_stats m p = (some s, m) := by
  simp [get_or_init_stats, h]

theorem goi_miss (m : StatsMap) (p : Nat) (h : map_lookup m p = none) :
    get_or_init_stats m p =
      (map_lookup (bpf_map_update_elem m p stats_zero) p,
        bpf_map_update_elem m p stats_zero) := by
  simp [get_or_init_stats, h]

theorem update_miss_room (m : StatsMap) (p : Nat) (v : stats_t)
    (h : map_lookup m p = none) (hr : m.length < max_entries) :
    bpf_map_update_elem m p v = (p, v) :: m := by
  simp [bpf_map_update_elem, h, hr]

theorem update_miss_full (m : StatsMap) (p : Nat) (v : stats_t)
    (h : map_lookup m p = none) (hr : ¬ m.length < max_entries) :
    bpf_map_update_elem m p v = m := by
  simp [bpf_map_update_elem, h, hr]

theorem goi_miss_room (m : StatsMap) (p : Nat)
    (h : map_lookup m p = none) (hr : m.length < max_entries) :
    get_or_init_stats m p = (some stats_zero, (p, stats_zero) :: m) := by
  rw [goi_miss m p h, update_miss_room m p stats_zero h hr]
  simp [map_lookup]

theorem goi_miss_full (m : StatsMap) (p : Nat)
    (h : map_lookup m p = none) (hr : ¬ m.length < max_entries) :
    get_or_init_stats m p = (none, m) := by
  rw [goi_miss m p h, update_miss_full m p stats_zero h hr]
  simp [h]

theorem goi_fst_lookup (m : StatsMap) (p : Nat) (s : stats_t)
    (h : (get_or_init_stats m p).1 = some s) :
    map_lookup (get_or_init_stats m p).2 p = some s := by
  rcases hc : map_lookup m p with _ | s'
  · rw [goi_miss m p hc] at h ⊢
    exact h
  · rw [goi_hit m p s' hc] at h ⊢
    simpa [hc] using h

theorem tally_hit (m : StatsMap) (p : Nat) (s : stats_t)
    (h : map_lookup m p = some s) :
    tally_switch m p = write_back m p (bump_cs s) := by
  simp [tally_switch, goi_hit m p s h]

theorem tally_miss_room (m : StatsMap) (p : Nat)
    (h : map_lookup m p = none) (hr : m.length < max_entries) :
    tally_switch m p = (p, bump_cs stats_zero) :: m := by
  simp only [tally_switch, goi_miss_room m p h hr]
  simp [write_back, write_back_absent m p _ h]

theorem tally_miss_full (m : StatsMap) (p : Nat)
    (h : map_lookup m p = none) (hr : ¬ m.length < max_entries) :
    tally_switch m p = m := by
  simp [tally_switch, goi_miss_full m p h hr]

theorem tally_lookup_self_hit (m : StatsMap) (p : Nat) (s : stats_t)
    (h : map_lookup m p = some s) :
    map_lookup (tally_switch m p) p = some (bump_cs s) := by
  rw [tally_hit m p s h]
  exact lookup_write_back_self m p _ (by simp [h])

theorem tally_lookup_ne (m : StatsMap) (p q : Nat) (h : q ≠ p) :
    map_lookup (tally_switch m p) q = map_lookup m q := by
  rcases hc : map_lookup m p with _ | s
  · by_cases hr : m.length < max_entries
    · rw [tally_miss_room m p hc hr]
      simp [map_lookup, Ne.symm h]
    · rw [tally_miss_full m p hc hr]
  · rw [tally_hit m p s hc]
    exact lookup_write_back_ne m p q _ h

theorem tally_length_le (m : StatsMap) (p : Nat)
    (h : m.length ≤ max_entries) :
    (tally_switch m p).length ≤ max_entries := by
  rcases hc : map_lookup m p with _ | s
  · by_cases hr : m.length < max_entries
    · rw [tally_miss_room m p hc hr]
      simpa using hr
    · rw [tally_miss_full m p hc hr]
      exact h
  · rw [tally_hit m p s hc, length_write_back]
    exact h

theorem faults_zero_tally (m : StatsMap) (p : Nat)
    (hm : faults_zero m) : faults_zero (tally_switch m p) := by
  rcases hc : map_lookup m p with _ | s
  · by_cases hr : m.length < max_entries
    · rw [tally_miss_room m p hc hr]
      intro e he
      rcases List.mem_cons.1 he with he | he
      · subst he
        simp [bump_cs, stats_zero]
      · exact hm e he
    · rw [tally_miss_full m p hc hr]
      exact hm
  · rw [tally_hit m p s hc]
    intro e he
    rcases mem_write_back m p _ e he with he' | he'
    · exact hm e he'
    · subst he'
      have := hm (p, s) (lookup_mem m p s hc)
      simpa [bump_cs] using this

theorem faults_zero_goi (m : StatsMap) (p : Nat)
    (hm : faults_zero m) : faults_zero (get_or_init_stats m p).2 := by
  rcases hc : map_lookup m p with _ | s
  · by_cases hr : m.length < max_entries
    · rw [goi_miss_room m p hc hr]
      intro e he
      rcases List.mem_cons.1 he with he | he
      · subst he
        simp [stats_zero]
      · exact hm e he
    · rw [goi_miss_full m p hc hr]
      exact hm
  · rw [goi_hit m p s hc]
    exact hm

end Stats

/-! ### Characterisation lemmas for the stats-v2.c (LRU hash) variant -/

namespace StatsV2

theorem v2_goi_hit (m : StatsMap) (p : Nat) (s : stats_t)
    (h : map_lookup m p = some s) :
    get_or_init_stats m p = (some s, (p, s) :: map_remove m p) := by
  simp [get_or_init_stats, h, lru_touch]

theorem v2_goi_miss_room (m : StatsMap) (p : Nat)
    (h : map_lookup m p = none) (hr : m.length < max_entries) :
    get_or_init_stats m p = (some stats_zero, (p, stats_zero) :: m) := by
  have hrm : map_remove m p = m := remove_absent m p h
  have hupd : bpf_map_update_elem m p stats_zero = (p, stats_zero) :: m := by
    simp [bpf_map_update_elem, hrm, hr]
  simp [get_or_init_stats, h, hupd, map_lookup, lru_touch, map_remove, hrm]

theorem v2_goi_miss_full (m : StatsMap) (p : Nat)
    (h : map_lookup m p = none) (hr : ¬ m.length < max_entries) :
    get_or_init_stats m p = (some stats_zero, (p, stats_zero) :: evict_last m) := by
  have hrm : map_remove m p = m := remove_absent m p h
  have hupd : bpf_map_update_elem m p stats_zero =
      (p, stats_zero) :: evict_last m := by
    simp [bpf_map_update_elem, hrm, hr]
  have hev : map_lookup (evict_last m) p = none := by
    rw [lookup_none_iff] at h ⊢
    exact fun hmem => h (mem_keys_evict m p hmem)
  simp [get_or_init_stats, h, hupd, map_lookup, lru_touch, map_remove,
    remove_absent _ _ hev]

theorem goi_fst (m : StatsMap) (p : Nat) :
    (get_or_init_stats m p).1 = some ((map_lookup m p).getD stats_zero) := by
  rcases hc : map_lookup m p with _ | s
  · by_cases hr : m.length < max_entries
    · rw [v2_goi_miss_room m p hc hr]
      rfl
    · rw [v2_goi_miss_full m p hc hr]
      rfl
  · rw [v2_goi_hit m p s hc]
    rfl

theorem v2_tally_hit (m : StatsMap) (p : Nat) (s : stats_t)
    (h : map_lookup m p = some s) :
    tally_switch m p = (p, bump_cs s) :: map_remove m p := by
  rw [tally_switch, v2_goi_hit m p s h]
  simp [write_back, write_back_absent _ _ _ (lookup_remove_self m p)]

theorem v2_tally_miss_room (m : StatsMap) (p : Nat)
    (h : map_lookup m p = none) (hr : m.length < max_entries) :
    tally_switch m p = (p, bump_cs stats_zero) :: m := by
  rw [tally_switch, v2_goi_miss_room m p h hr]
  simp [write_back, write_back_absent _ _ _ h]

theorem v2_tally_miss_full (m : StatsMap) (p : Nat)
    (h : map_lookup m p = none) (hr : ¬ m.length < max_entries) :
    tally_switch m p = (p, bump_cs stats_zero) :: evict_last m := by
  have hev : map_lookup (evict_last m) p = none := by
    rw [lookup_none_iff] at h ⊢
    exact fun hmem => h (mem_keys_evict m p hmem)
  rw [tally_switch, v2_goi_miss_full m p h hr]
  simp [write_back, write_back_absent _ _ _ hev]

theorem tally_lookup_self (m : StatsMap) (p : Nat) :
    map_lookup (tally_switch m p) p =
      some (bump_cs ((map_lookup m p).getD stats_zero)) := by
  rcases hc : map_lookup m p with _ | s
  · by_cases hr : m.length < max_entries
    · rw [v2_tally_miss_room m p hc hr]
      simp [map_lookup]
    · rw [v2_tally_miss_full m p hc hr]
      simp [map_lookup]
  · rw [v2_tally_hit m p s hc]
    simp [map_lookup]

theorem tally_lookup_ne_hit (m : StatsMap) (p q : Nat) (s : stats_t)
    (h : q ≠ p) (hc : map_lookup m p = some s) :
    map_lookup (tally_switch m p) q = map_lookup m q := by
  rw [v2_tally_hit m p s hc]
  simp [map_lookup, Ne.symm h, lookup_remove_ne m p q h]

theorem tally_lookup_ne_room (m : StatsMap) (p q : Nat)
    (h : q ≠ p) (hr : m.length < max_entries) :
    map_lookup (tally_switch m p) q = map_lookup m q := by
  rcases hc : map_lookup m p with _ | s
  · rw [v2_tally_miss_room m p hc hr]
    simp [map_lookup, Ne.symm h]
  · exact tally_lookup_ne_hit m p q s h hc

theorem v2_tally_lookup_ne (m : StatsMap) (p q : Nat)
    (h : q ≠ p) (hn : (map_keys m).Nodup) :
    map_lookup (tally_switch m p) q = map_lookup m q ∨
      map_lookup (tally_switch m p) q = none := by
  rcases hc : map_lookup m p with _ | s
  · by_cases hr : m.length < max_entries
    · exact Or.inl (tally_lookup_ne_room m p q h hr)
    · rw [v2_tally_miss_full m p hc hr]
      rcases hl : last_key m with _ | vk
      · rw [last_key_eq_none] at hl
        subst hl
        exact absurd (by simp [max_entries]) hr
      · by_cases hq : q = vk
        · subst hq
          exact Or.inr (by simp [map_lookup, Ne.symm h,
            lookup_evict_last m q hn hl])
        · exact Or.inl (by simp [map_lookup, Ne.symm h,
            lookup_evict_ne_last m vk q hl hq])
  · exact Or.inl (tally_lookup_ne_hit m p q s h hc)

theorem tally_nodup (m : StatsMap) (p : Nat)
    (hn : (map_keys m).Nodup) : (map_keys (tally_switch m p)).Nodup := by
  rcases hc : map_lookup m p with _ | s
  · by_cases hr : m.length < max_entries
    · rw [v2_tally_miss_room m p hc hr, map_keys_cons, List.nodup_cons]
      exact ⟨(lookup_none_iff m p).1 hc, hn⟩
    · rw [v2_tally_miss_full m p hc hr, map_keys_cons, List.nodup_cons]
      refine ⟨fun hmem => (lookup_none_iff m p).1 hc (mem_keys_evict m p hmem),
        nodup_keys_evict m hn⟩
  · rw [v2_tally_hit m p s hc, map_keys_cons, List.nodup_cons]
    exact ⟨not_mem_keys_remove m p, nodup_keys_remove m p hn⟩

theorem v2_max_entries_eq : max_entries = 1024 := rfl

theorem v2_tally_length_le (m : StatsMap) (p : Nat)
    (h : m.length ≤ max_entries) :
    (tally_switch m p).length ≤ max_entries := by
  rw [v2_max_entries_eq] at h ⊢
  rcases hc : map_lookup m p with _ | s
  · by_cases hr : m.length < max_entries
    · rw [v2_tally_miss_room m p hc hr]
      rw [v2_max_entries_eq] at hr
      simp only [List.length_cons]
      omega
    · rw [v2_tally_miss_full m p hc hr]
      have := length_evict m
      simp only [List.length_cons]
      omega
  · rw [v2_tally_hit m p s hc]
    have := length_remove_lt m p (by simp [hc])
    simp only [List.length_cons]
    omega

theorem pf_hit (m : StatsMap) (pid : Nat) (s : stats_t)
    (e : trace_event_raw_page_fault_user) (hc : map_lookup m pid = some s) :
    (count_page_faults m pid (some e)).2 =
      (pid, if e.error_code % 2 = 1 then bump_minor s else bump_major s) ::
        map_remove m pid := by
  rw [count_page_faults, v2_goi_hit m pid s hc]
  by_cases hb : e.error_code % 2 = 1 <;>
    simp [hb, write_back, write_back_absent _ _ _ (lookup_remove_self m pid)]

theorem pf_miss_room (m : StatsMap) (pid : Nat)
    (e : trace_event_raw_page_fault_user) (hc : map_lookup m pid = none)
    (hr : m.length < max_entries) :
    (count_page_faults m pid (some e)).2 =
      (pid, if e.error_code % 2 = 1 then bump_minor stats_zero
        else bump_major stats_zero) :: m := by
  rw [count_page_faults, v2_goi_miss_room m pid hc hr]
  by_cases hb : e.error_code % 2 = 1 <;>
    simp [hb, write_back, write_back_absent _ _ _ hc]

theorem pf_miss_full (m : StatsMap) (pid : Nat)
    (e : trace_event_raw_page_fault_user) (hc : map_lookup m pid = none)
    (hr : ¬ m.length < max_entries) :
    (count_page_faults m pid (some e)).2 =
      (pid, if e.error_code % 2 = 1 then bump_minor stats_zero
        else bump_major stats_zero) :: evict_last m := by
  have hev : map_lookup (evict_last m) pid = none := by
    rw [lookup_none_iff] at hc ⊢
    exact fun hmem => hc (mem_keys_evict m pid hmem)
  rw [count_page_faults, v2_goi_miss_full m pid hc hr]
  by_cases hb : e.error_code % 2 = 1 <;>
    simp [hb, write_back, write_back_absent _ _ _ hev]

theorem pf_lookup_ne (m : StatsMap) (pid q : Nat)
    (e : trace_event_raw_page_fault_user) (h : q ≠ pid)
    (hn : (map_keys m).Nodup) :
    map_lookup (count_page_faults m pid (some e)).2 q = map_lookup m q ∨
      map_lookup (count_page_faults m pid (some e)).2 q = none := by
  rcases hc : map_lookup m pid with _ | s
  · by_cases hr : m.length < max_entries
    · rw [pf_miss_room m pid e hc hr]
      exact Or.inl (by simp [map_lookup, Ne.symm h])
    · rw [pf_miss_full m pid e hc hr]
      rcases hl : last_key m with _ | vk
      · rw [last_key_eq_none] at hl
        subst hl
        exact absurd (by simp [max_entries]) hr
      · by_cases hq : q = vk
        · subst hq
          exact Or.inr (by simp [map_lookup, Ne.symm h,
            lookup_evict_last m q hn hl])
        · exact Or.inl (by simp [map_lookup, Ne.symm h,
            lookup_evict_ne_last m vk q hl hq])
  · rw [pf_hit m pid s e hc]
    exact Or.inl (by simp [map_lookup, Ne.symm h, lookup_remove_ne m pid q h])

theorem pf_length_le (m : StatsMap) (pid : Nat)
    (e : trace_event_raw_page_fault_user) (h : m.length ≤ max_entries) :
    (count_page_faults m pid (some e)).2.length ≤ max_entries := by
  rw [v2_max_entries_eq] at h ⊢
  rcases hc : map_lookup m pid with _ | s
  · by_cases hr : m.length < max_entries
    · rw [pf_miss_room m pid e hc hr]
      rw [v2_max_entries_eq] at hr
      simp only [List.length_cons]
      omega
    · rw [pf_miss_full m pid e hc hr]
      have := length_evict m
      simp only [List.length_cons]
      omega
  · rw [pf_hit m pid s e hc]
    have := length_remove_lt m pid (by simp [hc])
    simp only [List.length_cons]
    omega

end StatsV2

/-! ### Arithmetic and auxiliary lemmas -/

theorem U64_eq : U64 = 18446744073709551616 := by norm_num [U64]

theorem mono_or_wrap_refl (s : stats_t) : mono_or_wrap s s :=
  ⟨Or.inl le_rfl, Or.inl le_rfl, Or.inl le_rfl⟩

theorem mono_or_wrap_bump_cs (s : stats_t) : mono_or_wrap s (bump_cs s) := by
  refine ⟨?_, Or.inl le_rfl, Or.inl le_rfl⟩
  simp only [bump_cs]
  rw [U64_eq]
  omega

theorem mono_or_wrap_bump_cs2 (s : stats_t) :
    mono_or_wrap s (bump_cs (bump_cs s)) := by
  refine ⟨?_, Or.inl le_rfl, Or.inl le_rfl⟩
  simp only [bump_cs]
  rw [U64_eq]
  omega

theorem mono_or_wrap_bump_minor (s : stats_t) :
    mono_or_wrap s (bump_minor s) := by
  refine ⟨Or.inl le_rfl, Or.inl le_rfl, ?_⟩
  simp only [bump_minor]
  rw [U64_eq]
  omega

theorem mono_or_wrap_bump_major (s : stats_t) :
    mono_or_wrap s (bump_major s) := by
  refine ⟨Or.inl le_rfl, ?_, Or.inl le_rfl⟩
  simp only [bump_major]
  rw [U64_eq]
  omega

theorem mkTable_length (n : Nat) : (mkTable n).length = n := by
  induction n with
  | zero => rfl
  | succ k ih => simp [mkTable, ih]

theorem mkTable_lookup_ge (n p : Nat) (h : n ≤ p) :
    map_lookup (mkTable n) p = none := by
  induction n with
  | zero => rfl
  | succ k ih =>
    have hk : k ≠ p := by omega
    simp [mkTable, map_lookup, hk, ih (by omega)]

theorem mkTable_last_key (n : Nat) (h : 0 < n) :
    last_key (mkTable n) = some 0 := by
  induction n with
  | zero => omega
  | succ k ih =>
    cases k with
    | zero => rfl
    | succ j =>
      have ih' := ih (Nat.succ_pos j)
      show last_key ((j + 1, stats_zero) :: mkTable (j + 1)) = some 0
      rw [show mkTable (j + 1) = (j, stats_zero) :: mkTable j from rfl]
      simp only [last_key]
      exact ih'

theorem mkTable_keys_nodup (n : Nat) : (map_keys (mkTable n)).Nodup := by
  induction n with
  | zero => simp [mkTable]
  | succ k ih =>
    simp only [mkTable, map_keys_cons, List.nodup_cons]
    exact ⟨(lookup_none_iff (mkTable k) k).1 (mkTable_lookup_ge k k le_rfl), ih⟩

/-! ### More variant-specific helper lemmas -/

namespace Stats

theorem max_entries_eq : max_entries = 1024 := rfl

theorem tally_transition (m : StatsMap) (p q : Nat) (s : stats_t)
    (h : map_lookup m q = some s) :
    map_lookup (tally_switch m p) q = some s ∨
      map_lookup (tally_switch m p) q = some (bump_cs s) := by
  by_cases hpq : q = p
  · subst hpq
    exact Or.inr (tally_lookup_self_hit m q s h)
  · exact Or.inl ((tally_lookup_ne m p q hpq).trans h)

end Stats

namespace StatsV2

theorem v2_tally_transition (m : StatsMap) (p q : Nat) (s : stats_t)
    (hn : (map_keys m).Nodup) (h : map_lookup m q = some s) :
    map_lookup (tally_switch m p) q = some s ∨
      map_lookup (tally_switch m p) q = some (bump_cs s) ∨
      map_lookup (tally_switch m p) q = none := by
  by_cases hpq : q = p
  · subst hpq
    exact Or.inr (Or.inl (by simp [tally_lookup_self m q, h]))
  · rcases v2_tally_lookup_ne m p q hpq hn with h' | h'
    · exact Or.inl (h'.trans h)
    · exact Or.inr (Or.inr h')

theorem goi_snd_head (m : StatsMap) (p : Nat) (s : stats_t)
    (h : (get_or_init_stats m p).1 = some s) :
    ∃ t, (get_or_init_stats m p).2 = (p, s) :: t ∧ map_lookup t p = none := by
  rcases hc : map_lookup m p with _ | s0
  · by_cases hr : m.length < max_entries
    · rw [v2_goi_miss_room m p hc hr] at h ⊢
      obtain rfl : stats_zero = s := by simpa using h
      exact ⟨m, rfl, hc⟩
    · rw [v2_goi_miss_full m p hc hr] at h ⊢
      obtain rfl : stats_zero = s := by simpa using h
      refine ⟨evict_last m, rfl, ?_⟩
      rw [lookup_none_iff] at hc ⊢
      exact fun hm => hc (mem_keys_evict m p hm)
  · rw [v2_goi_hit m p s0 hc] at h ⊢
    obtain rfl : s0 = s := by simpa using h
    exact ⟨map_remove m p, rfl, lookup_remove_self m p⟩

theorem pf_lookup_self (m : StatsMap) (pid : Nat)
    (e : trace_event_raw_page_fault_user) :
    map_lookup (count_page_faults m pid (some e)).2 pid =
      some (if e.error_code % 2 = 1 then
          bump_minor ((map_lookup m pid).getD stats_zero)
        else bump_major ((map_lookup m pid).getD stats_zero)) := by
  rcases hc : map_lookup m pid with _ | s
  · by_cases hr : m.length < max_entries
    · rw [pf_miss_room m pid e hc hr]
      simp [map_lookup]
    · rw [pf_miss_full m pid e hc hr]
      simp [map_lookup]
  · rw [pf_hit m pid s e hc]
    simp [map_lookup]

end StatsV2

theorem iterPF_succ_eq (n : Nat) :
    iterPF (n + 1) = [(7, ⟨0, 0, (n + 1) % U64⟩)] := by
  induction n with
  | zero =>
    show (StatsV2.count_page_faults [] 7 (some ⟨0, 0, 0, 0, 0, 0, 1⟩)).2 =
      [(7, ⟨0, 0, 1 % U64⟩)]
    rw [StatsV2.pf_miss_room [] 7 _ rfl (by simp [StatsV2.max_entries])]
    simp [bump_minor, stats_zero]
  | succ k ih =>
    show (StatsV2.count_page_faults (iterPF (k + 1)) 7
        (some ⟨0, 0, 0, 0, 0, 0, 1⟩)).2 = [(7, ⟨0, 0, (k + 2) % U64⟩)]
    rw [ih, StatsV2.pf_hit [(7, ⟨0, 0, (k + 1) % U64⟩)] 7 ⟨0, 0, (k + 1) % U64⟩
      _ (by simp [map_lookup])]
    simp only [map_remove, if_pos rfl, bump_minor]
    norm_num

/-! ### Claim theorems -/

/-- C1: `get_or_init_stats(id)` first looks `id` up in the table and returns
the found record immediately; on a miss it inserts a zero-valued record with
insert-or-overwrite (`BPF_ANY`) semantics, then looks `id` up a second time
and returns the result of that second lookup — absent (`none`) rather than
an error when the insert was rejected.  Stated for both the stats.c and the
stats-v2.c variant. -/
theorem C1_get_or_init_algorithm (m : StatsMap) (p : Nat) (s : stats_t) :
    (map_lookup m p = some s → Stats.get_or_init_stats m p = (some s, m)) ∧
    (map_lookup m p = none →
      Stats.get_or_init_stats m p =
        (map_lookup (Stats.bpf_map_update_elem m p stats_zero) p,
          Stats.bpf_map_update_elem m p stats_zero)) ∧
    (map_lookup m p = some s → (StatsV2.get_or_init_stats m p).1 = some s) ∧
    (map_lookup m p = none →
      StatsV2.get_or_init_stats m p =
        (map_lookup (StatsV2.bpf_map_update_elem m p stats_zero) p,
          StatsV2.bpf_map_update_elem m p stats_zero)) := by
  refine ⟨fun h => Stats.goi_hit m p s h, fun h => Stats.goi_miss m p h,
    fun h => ?_, fun h => ?_⟩
  · rw [StatsV2.v2_goi_hit m p s h]
  · have hrm : map_remove m p = m := remove_absent m p h
    by_cases hr : m.length < StatsV2.max_entries
    · have hupd : StatsV2.bpf_map_update_elem m p stats_zero =
          (p, stats_zero) :: m := by
        simp [StatsV2.bpf_map_update_elem, hrm, hr]
      rw [StatsV2.v2_goi_miss_room m p h hr, hupd]
      simp [map_lookup]
    · have hupd : StatsV2.bpf_map_update_elem m p stats_zero =
          (p, stats_zero) :: evict_last m := by
        simp [StatsV2.bpf_map_update_elem, hrm, hr]
      rw [StatsV2.v2_goi_miss_full m p h hr, hupd]
      simp [map_lookup]

/-- Witness for C1 at concrete inputs: a hit on a one-entry table and a miss
on the empty table, for both variants. -/
theorem C1_witness :
    Stats.get_or_init_stats [(5, ⟨1, 2, 3⟩)] 5 =
      (some ⟨1, 2, 3⟩, [(5, ⟨1, 2, 3⟩)]) ∧
    Stats.get_or_init_stats [] 7 =
      (map_lookup (Stats.bpf_map_update_elem [] 7 stats_zero) 7,
        Stats.bpf_map_update_elem [] 7 stats_zero) ∧
    (StatsV2.get_or_init_stats [(5, ⟨1, 2, 3⟩)] 5).1 = some ⟨1, 2, 3⟩ ∧
    StatsV2.get_or_init_stats [] 7 =
      (map_lookup (StatsV2.bpf_map_update_elem [] 7 stats_zero) 7,
        StatsV2.bpf_map_update_elem [] 7 stats_zero) :=
  ⟨(C1_get_or_init_algorithm [(5, ⟨1, 2, 3⟩)] 5 ⟨1, 2, 3⟩).1 (by decide),
    (C1_get_or_init_algorithm [] 7 ⟨1, 2, 3⟩).2.1 (by decide),
    (C1_get_or_init_algorithm [(5, ⟨1, 2, 3⟩)] 5 ⟨1, 2, 3⟩).2.2.1 (by decide),
    (C1_get_or_init_algorithm [] 7 ⟨1, 2, 3⟩).2.2.2 (by decide)⟩

/-- C4: a null event payload makes each hook return the "handled" signal 0
with the table untouched, in both variants. -/
theorem C4_null_payload_noop (m : StatsMap) (pid : Nat) :
    Stats.count_context_switches m none = (0, m) ∧
    StatsV2.count_context_switches m none = (0, m) ∧
    StatsV2.count_page_faults m pid none = (0, m) :=
  ⟨rfl, rfl, rfl⟩

/-- C5: in the stats.c (unbounded-policy) variant, with 1024 entries present
and `p` absent, resolve-or-create returns absent with the table unchanged, a
context-switch event for `p` is a no-op, and every pid still reads exactly
what it read before. -/
theorem C5_hash_capacity_reject (m : StatsMap) (p : Nat)
    (hlen : m.length = 1024) (habs : map_lookup m p = none) :
    Stats.get_or_init_stats m p = (none, m) ∧
    Stats.count_context_switches m (some ⟨p, p⟩) = (0, m) ∧
    ∀ q, map_lookup (Stats.count_context_switches m (some ⟨p, p⟩)).2 q =
      map_lookup m q := by
  have hr : ¬ m.length < Stats.max_entries := by
    rw [Stats.max_entries_eq]
    omega
  have ht : Stats.tally_switch m p = m := Stats.tally_miss_full m p habs hr
  have hcount : Stats.count_context_switches m (some ⟨p, p⟩) = (0, m) := by
    show (0, Stats.tally_switch (Stats.tally_switch m p) p) = (0, m)
    rw [ht, ht]
  exact ⟨Stats.goi_miss_full m p habs hr, hcount, fun q => by rw [hcount]⟩

/-- Witness for C5: the concrete full table of pids 0..1023 and the new pid
2025. -/
theorem C5_witness :
    Stats.get_or_init_stats (mkTable 1024) 2025 = (none, mkTable 1024) ∧
    Stats.count_context_switches (mkTable 1024) (some ⟨2025, 2025⟩) =
      (0, mkTable 1024) ∧
    ∀ q, map_lookup
        (Stats.count_context_switches (mkTable 1024) (some ⟨2025, 2025⟩)).2 q =
      map_lookup (mkTable 1024) q :=
  C5_hash_capacity_reject (mkTable 1024) 2025 (mkTable_length 1024)
    (mkTable_lookup_ge 1024 2025 (by omega))

/-- C9: the capacity constant is 1024 in both variants, and no hook
invocation ever grows the table beyond 1024 entries. -/
theorem C9_capacity_fixed (m : StatsMap) (pid : Nat)
    (ctx : Option trace_event_raw_sched_switch)
    (ctxf : Option trace_event_raw_page_fault_user)
    (h : m.length ≤ 1024) :
    Stats.max_entries = 1024 ∧ StatsV2.max_entries = 1024 ∧
    (Stats.count_context_switches m ctx).2.length ≤ 1024 ∧
    (StatsV2.count_context_switches m ctx).2.length ≤ 1024 ∧
    (StatsV2.count_page_faults m pid ctxf).2.length ≤ 1024 := by
  refine ⟨rfl, rfl, ?_, ?_, ?_⟩
  · cases ctx with
    | none => exact h
    | some e =>
      show (Stats.tally_switch (Stats.tally_switch m e.prev_pid)
        e.next_pid).length ≤ 1024
      have h1 := Stats.tally_length_le m e.prev_pid
        (by rw [Stats.max_entries_eq]; exact h)
      have h2 := Stats.tally_length_le _ e.next_pid h1
      rw [Stats.max_entries_eq] at h2
      exact h2
  · cases ctx with
    | none => exact h
    | some e =>
      show (StatsV2.tally_switch (StatsV2.tally_switch m e.prev_pid)
        e.next_pid).length ≤ 1024
      have h1 := StatsV2.v2_tally_length_le m e.prev_pid
        (by rw [StatsV2.v2_max_entries_eq]; exact h)
      have h2 := StatsV2.v2_tally_length_le _ e.next_pid h1
      rw [StatsV2.v2_max_entries_eq] at h2
      exact h2
  · cases ctxf with
    | none => exact h
    | some e =>
      have h1 := StatsV2.pf_length_le m pid e
        (by rw [StatsV2.v2_max_entries_eq]; exact h)
      rw [StatsV2.v2_max_entries_eq] at h1
      exact h1

/-- Witness for C9 at concrete inputs. -/
theorem C9_witness :
    Stats.max_entries = 1024 ∧ StatsV2.max_entries = 1024 ∧
    (Stats.count_context_switches [(1, ⟨0, 0, 0⟩)] (some ⟨3, 4⟩)).2.length ≤
      1024 ∧
    (StatsV2.count_context_switches [(1, ⟨0, 0, 0⟩)] (some ⟨3, 4⟩)).2.length ≤
      1024 ∧
    (StatsV2.count_page_faults [(1, ⟨0, 0, 0⟩)] 2
        (some ⟨0, 0, 0, 0, 0, 0, 0⟩)).2.length ≤ 1024 :=
  C9_capacity_fixed [(1, ⟨0, 0, 0⟩)] 2 (some ⟨3, 4⟩)
    (some ⟨0, 0, 0, 0, 0, 0, 0⟩) (by decide)

/-- C10: the stats.c variant has only the context-switch hook, and none of
its operations ever makes a fault counter non-zero: if every record in the
table has zero fault counters, that is still true after any hook invocation
or resolve-or-create, and it is true of the initial empty table. -/
theorem C10_v1_fault_counters_zero (m : StatsMap) (pid : Nat)
    (ctx : Option trace_event_raw_sched_switch) (h : faults_zero m) :
    faults_zero (Stats.count_context_switches m ctx).2 ∧
    faults_zero (Stats.get_or_init_stats m pid).2 ∧
    faults_zero ([] : StatsMap) := by
  refine ⟨?_, Stats.faults_zero_goi m pid h,
    fun e he => absurd he (List.not_mem_nil e)⟩
  cases ctx with
  | none => exact h
  | some e =>
    show faults_zero
      (Stats.tally_switch (Stats.tally_switch m e.prev_pid) e.next_pid)
    exact Stats.faults_zero_tally _ _ (Stats.faults_zero_tally _ _ h)

/-- Witness for C10 at a concrete table with a non-trivial switch count. -/
theorem C10_witness :
    faults_zero (Stats.count_context_switches [(3, ⟨5, 0, 0⟩)]
      (some ⟨3, 8⟩)).2 ∧
    faults_zero (Stats.get_or_init_stats [(3, ⟨5, 0, 0⟩)] 9).2 ∧
    faults_zero ([] : StatsMap) :=
  C10_v1_fault_counters_zero [(3, ⟨5, 0, 0⟩)] 9 (some ⟨3, 8⟩)
    (by intro e he
        rcases List.mem_singleton.1 he with rfl
        exact ⟨rfl, rfl⟩)

/-- C3: when a non-null page-fault event's record resolves to `s`, exactly
one fault counter receives one 64-bit increment: error-code bit 0 set bumps
`minor_faults` and leaves `major_faults` and `context_switches` unchanged;
bit 0 clear does the opposite. -/
theorem C3_page_fault_exactly_one (m : StatsMap) (pid : Nat)
    (e : trace_event_raw_page_fault_user) (s : stats_t)
    (h : (StatsV2.get_or_init_stats m pid).1 = some s) :
    (e.error_code % 2 = 1 →
      map_lookup (StatsV2.count_page_faults m pid (some e)).2 pid =
          some (bump_minor s) ∧
        (bump_minor s).minor_faults = (s.minor_faults + 1) % U64 ∧
        (bump_minor s).major_faults = s.major_faults ∧
        (bump_minor s).context_switches = s.context_switches) ∧
    (e.error_code % 2 ≠ 1 →
      map_lookup (StatsV2.count_page_faults m pid (some e)).2 pid =
          some (bump_major s) ∧
        (bump_major s).major_faults = (s.major_faults + 1) % U64 ∧
        (bump_major s).minor_faults = s.minor_faults ∧
        (bump_major s).context_switches = s.context_switches) := by
  have hs : s = (map_lookup m pid).getD stats_zero := by
    have h0 := StatsV2.goi_fst m pid
    rw [h] at h0
    simpa using h0
  have hl := StatsV2.pf_lookup_self m pid e
  rw [← hs] at hl
  constructor
  · intro hb
    rw [if_pos hb] at hl
    exact ⟨hl, rfl, rfl, rfl⟩
  · intro hb
    rw [if_neg hb] at hl
    exact ⟨hl, rfl, rfl, rfl⟩

/-- Witness for C3: pid 7, a bit-0-set fault and a bit-0-clear fault on the
empty table. -/
theorem C3_witness :
    (map_lookup (StatsV2.count_page_faults [] 7
          (some ⟨0, 0, 0, 0, 0, 0, 1⟩)).2 7 = some (bump_minor stats_zero) ∧
      (bump_minor stats_zero).minor_faults =
        (stats_zero.minor_faults + 1) % U64 ∧
      (bump_minor stats_zero).major_faults = stats_zero.major_faults ∧
      (bump_minor stats_zero).context_switches =
        stats_zero.context_switches) ∧
    (map_lookup (StatsV2.count_page_faults [] 7
          (some ⟨0, 0, 0, 0, 0, 0, 2⟩)).2 7 = some (bump_major stats_zero) ∧
      (bump_major stats_zero).major_faults =
        (stats_zero.major_faults + 1) % U64 ∧
      (bump_major stats_zero).minor_faults = stats_zero.minor_faults ∧
      (bump_major stats_zero).context_switches =
        stats_zero.context_switches) :=
  ⟨(C3_page_fault_exactly_one [] 7 ⟨0, 0, 0, 0, 0, 0, 1⟩ stats_zero
      (by decide)).1 (by decide),
    (C3_page_fault_exactly_one [] 7 ⟨0, 0, 0, 0, 0, 0, 2⟩ stats_zero
      (by decide)).2 (by decide)⟩

/-- C6: in the stats-v2.c (LRU) variant, with 1024 distinct ids present and
`p` absent, resolve-or-create for `p` succeeds (the insert is never
rejected), and afterwards exactly one previously-present id — the
least-recently-touched key `vk` — is unreadable while every other old id
still reads its old record. -/
theorem C6_lru_capacity_evict (m : StatsMap) (p vk : Nat)
    (hn : (map_keys m).Nodup) (hlen : m.length = 1024)
    (habs : map_lookup m p = none) (hlast : last_key m = some vk) :
    StatsV2.get_or_init_stats m p =
      (some stats_zero, (p, stats_zero) :: evict_last m) ∧
    map_lookup ((p, stats_zero) :: evict_last m) p = some stats_zero ∧
    map_lookup ((p, stats_zero) :: evict_last m) vk = none ∧
    (∀ q, q ≠ vk → q ≠ p →
      map_lookup ((p, stats_zero) :: evict_last m) q = map_lookup m q) ∧
    (∀ (m' : StatsMap) (p' : Nat),
      ((StatsV2.get_or_init_stats m' p').1).isSome) := by
  have hr : ¬ m.length < StatsV2.max_entries := by
    rw [StatsV2.v2_max_entries_eq]
    omega
  have hpv : p ≠ vk := by
    intro hEq
    exact (lookup_none_iff m p).1 habs (hEq ▸ last_key_mem m vk hlast)
  refine ⟨StatsV2.v2_goi_miss_full m p habs hr, by simp [map_lookup], ?_, ?_, ?_⟩
  · simp [map_lookup, hpv, lookup_evict_last m vk hn hlast]
  · intro q hqvk hqp
    simp [map_lookup, Ne.symm hqp, lookup_evict_ne_last m vk q hlast hqvk]
  · intro m' p'
    rw [StatsV2.goi_fst m' p']
    rfl

/-- Witness for C6: the concrete full table of pids 0..1023 (pid 0 least
recently touched) and the new pid 2025. -/
theorem C6_witness :
    StatsV2.get_or_init_stats (mkTable 1024) 2025 =
      (some stats_zero, (2025, stats_zero) :: evict_last (mkTable 1024)) ∧
    map_lookup ((2025, stats_zero) :: evict_last (mkTable 1024)) 2025 =
      some stats_zero ∧
    map_lookup ((2025, stats_zero) :: evict_last (mkTable 1024)) 0 = none ∧
    (∀ q, q ≠ 0 → q ≠ 2025 →
      map_lookup ((2025, stats_zero) :: evict_last (mkTable 1024)) q =
        map_lookup (mkTable 1024) q) ∧
    (∀ (m' : StatsMap) (p' : Nat),
      ((StatsV2.get_or_init_stats m' p').1).isSome) :=
  C6_lru_capacity_evict (mkTable 1024) 2025 0 (mkTable_keys_nodup 1024)
    (mkTable_length 1024) (mkTable_lookup_ge 1024 2025 (by omega))
    (mkTable_last_key 1024 (by omega))

/-- C7: resolve-or-create is idempotent in immediate non-concurrent
succession: when the first call returns a record, a second call returns the
same record and leaves the table exactly as the first call left it, and an
increment written through the first call's record is what the second call
returns.  Stated for both variants. -/
theorem C7_resolve_idempotent (m : StatsMap) (p : Nat) (s : stats_t) :
    ((Stats.get_or_init_stats m p).1 = some s →
      Stats.get_or_init_stats (Stats.get_or_init_stats m p).2 p =
          (some s, (Stats.get_or_init_stats m p).2) ∧
        Stats.get_or_init_stats
            (write_back (Stats.get_or_init_stats m p).2 p (bump_cs s)) p =
          (some (bump_cs s),
            write_back (Stats.get_or_init_stats m p).2 p (bump_cs s))) ∧
    ((StatsV2.get_or_init_stats m p).1 = some s →
      StatsV2.get_or_init_stats (StatsV2.get_or_init_stats m p).2 p =
          (some s, (StatsV2.get_or_init_stats m p).2) ∧
        StatsV2.get_or_init_stats
            (write_back (StatsV2.get_or_init_stats m p).2 p (bump_cs s)) p =
          (some (bump_cs s),
            write_back (StatsV2.get_or_init_stats m p).2 p (bump_cs s))) := by
  constructor
  · intro h
    have h1 : map_lookup (Stats.get_or_init_stats m p).2 p = some s :=
      Stats.goi_fst_lookup m p s h
    refine ⟨Stats.goi_hit _ p s h1, ?_⟩
    have h2 : map_lookup
        (write_back (Stats.get_or_init_stats m p).2 p (bump_cs s)) p =
        some (bump_cs s) :=
      lookup_write_back_self _ p _ (by simp [h1])
    exact Stats.goi_hit _ p _ h2
  · intro h
    obtain ⟨t, ht, htp⟩ := StatsV2.goi_snd_head m p s h
    constructor
    · rw [ht, StatsV2.v2_goi_hit ((p, s) :: t) p s (by simp [map_lookup])]
      simp [map_remove, remove_absent t p htp]
    · rw [ht]
      have hwb : write_back ((p, s) :: t) p (bump_cs s) =
          (p, bump_cs s) :: t := by
        simp [write_back, write_back_absent t p _ htp]
      rw [hwb, StatsV2.v2_goi_hit ((p, bump_cs s) :: t) p (bump_cs s)
        (by simp [map_lookup])]
      simp [map_remove, remove_absent t p htp]

/-- Witness for C7: pid 4 resolved twice from the empty table, with the
increment written between the calls. -/
theorem C7_witness :
    (Stats.get_or_init_stats (Stats.get_or_init_stats [] 4).2 4 =
        (some stats_zero, (Stats.get_or_init_stats [] 4).2) ∧
      Stats.get_or_init_stats
          (write_back (Stats.get_or_init_stats [] 4).2 4
            (bump_cs stats_zero)) 4 =
        (some (bump_cs stats_zero),
          write_back (Stats.get_or_init_stats [] 4).2 4
            (bump_cs stats_zero))) ∧
    (StatsV2.get_or_init_stats (StatsV2.get_or_init_stats [] 4).2 4 =
        (some stats_zero, (StatsV2.get_or_init_stats [] 4).2) ∧
      StatsV2.get_or_init_stats
          (write_back (StatsV2.get_or_init_stats [] 4).2 4
            (bump_cs stats_zero)) 4 =
        (some (bump_cs stats_zero),
          write_back (StatsV2.get_or_init_stats [] 4).2 4
            (bump_cs stats_zero))) :=
  ⟨(C7_resolve_idempotent [] 4 stats_zero).1 (by decide),
    (C7_resolve_idempotent [] 4 stats_zero).2 (by decide)⟩

/-- C8 counterexample: counters are `__u64` and wrap.  Starting from the
empty table, after `2^64 - 1` bit-0-set page-fault events for pid 7 the live
record reads `minor_faults = 2^64 - 1`; one more such event — a core
operation on a live record created from zero by core operations only —
makes it read `0`, a strict decrease.  Hence the universal monotonicity
statement is false. -/
theorem C8_counterexample :
    map_lookup (iterPF (U64 - 1)) 7 = some ⟨0, 0, U64 - 1⟩ ∧
    map_lookup (StatsV2.count_page_faults (iterPF (U64 - 1)) 7
        (some ⟨0, 0, 0, 0, 0, 0, 1⟩)).2 7 = some ⟨0, 0, 0⟩ ∧
    ¬ (U64 - 1 ≤ 0) ∧
    ¬ (∀ (m' : StatsMap) (p' pid' : Nat)
        (e' : trace_event_raw_page_fault_user) (s s' : stats_t),
        map_lookup m' p' = some s →
        map_lookup (StatsV2.count_page_faults m' pid' (some e')).2 p' =
          some s' →
        s.minor_faults ≤ s'.minor_faults) := by
  have hU : U64 - 1 = (U64 - 2) + 1 := by
    norm_num [U64_eq]
  have hmod : ((U64 - 2) + 1) % U64 = U64 - 1 := by
    norm_num [U64_eq]
  have h1 : iterPF (U64 - 1) = [(7, ⟨0, 0, U64 - 1⟩)] := by
    conv_lhs => rw [hU]
    rw [iterPF_succ_eq (U64 - 2), hmod]
  have h2 : map_lookup (iterPF (U64 - 1)) 7 = some ⟨0, 0, U64 - 1⟩ := by
    rw [h1]
    simp [map_lookup]
  have h3 : map_lookup (StatsV2.count_page_faults (iterPF (U64 - 1)) 7
      (some ⟨0, 0, 0, 0, 0, 0, 1⟩)).2 7 = some ⟨0, 0, 0⟩ := by
    rw [h1, StatsV2.pf_hit [(7, ⟨0, 0, U64 - 1⟩)] 7 ⟨0, 0, U64 - 1⟩ _
      (by simp [map_lookup])]
    have hw : (U64 - 1 + 1) % U64 = 0 := by
      norm_num [U64_eq]
    simp [map_lookup, bump_minor, hw]
  have h4 : ¬ (U64 - 1 ≤ 0) := by
    norm_num [U64_eq]
  refine ⟨h2, h3, h4, fun hAll => h4 ?_⟩
  exact hAll (iterPF (U64 - 1)) 7 7 ⟨0, 0, 0, 0, 0, 0, 1⟩
    ⟨0, 0, U64 - 1⟩ ⟨0, 0, 0⟩ h2 h3

/-- C8 as amended: across every hook operation, each counter of a record
live before and after is non-decreasing unless the 64-bit increment wrapped
(the prior value was within 2 of 2^64); additionally, in the LRU variant a
context-switch event may evict a live record mid-event and re-create a
fresh zero-based record for the same pid (counter then reads 1). -/
theorem C8_amended_monotone (m : StatsMap) (p pid : Nat)
    (e : trace_event_raw_sched_switch) (ef : trace_event_raw_page_fault_user)
    (s1 s1' s2 s2' s3 s3' : stats_t) (hn : (map_keys m).Nodup) :
    (map_lookup m p = some s1 →
      map_lookup (Stats.count_context_switches m (some e)).2 p = some s1' →
      mono_or_wrap s1 s1') ∧
    (map_lookup m p = some s2 →
      map_lookup (StatsV2.count_context_switches m (some e)).2 p = some s2' →
      mono_or_wrap s2 s2' ∨ s2' = bump_cs stats_zero) ∧
    (map_lookup m p = some s3 →
      map_lookup (StatsV2.count_page_faults m pid (some ef)).2 p = some s3' →
      mono_or_wrap s3 s3') := by
  refine ⟨?_, ?_, ?_⟩
  · intro h1 h1'
    have h1'' : map_lookup
        (Stats.tally_switch (Stats.tally_switch m e.prev_pid) e.next_pid) p =
        some s1' := h1'
    rcases Stats.tally_transition m e.prev_pid p s1 h1 with hA | hA <;>
      rcases Stats.tally_transition _ e.next_pid p _ hA with hB | hB
    · have hx : s1 = s1' := by simpa using hB.symm.trans h1''
      exact hx ▸ mono_or_wrap_refl s1
    · have hx : bump_cs s1 = s1' := by simpa using hB.symm.trans h1''
      exact hx ▸ mono_or_wrap_bump_cs s1
    · have hx : bump_cs s1 = s1' := by simpa using hB.symm.trans h1''
      exact hx ▸ mono_or_wrap_bump_cs s1
    · have hx : bump_cs (bump_cs s1) = s1' := by
        simpa using hB.symm.trans h1''
      exact hx ▸ mono_or_wrap_bump_cs2 s1
  · intro h2 h2'
    have h2'' : map_lookup
        (StatsV2.tally_switch (StatsV2.tally_switch m e.prev_pid)
          e.next_pid) p = some s2' := h2'
    have hn1 := StatsV2.tally_nodup m e.prev_pid hn
    rcases StatsV2.v2_tally_transition m e.prev_pid p s2 hn h2 with hA | hA | hA
    · rcases StatsV2.v2_tally_transition _ e.next_pid p s2 hn1 hA
        with hB | hB | hB
      · have hx : s2 = s2' := by simpa using hB.symm.trans h2''
        exact Or.inl (hx ▸ mono_or_wrap_refl s2)
      · have hx : bump_cs s2 = s2' := by simpa using hB.symm.trans h2''
        exact Or.inl (hx ▸ mono_or_wrap_bump_cs s2)
      · have : (none : Option stats_t) = some s2' := hB.symm.trans h2''
        simp at this
    · rcases StatsV2.v2_tally_transition _ e.next_pid p (bump_cs s2) hn1 hA
        with hB | hB | hB
      · have hx : bump_cs s2 = s2' := by simpa using hB.symm.trans h2''
        exact Or.inl (hx ▸ mono_or_wrap_bump_cs s2)
      · have hx : bump_cs (bump_cs s2) = s2' := by
          simpa using hB.symm.trans h2''
        exact Or.inl (hx ▸ mono_or_wrap_bump_cs2 s2)
      · have : (none : Option stats_t) = some s2' := hB.symm.trans h2''
        simp at this
    · by_cases hpb : p = e.next_pid
      · rw [hpb] at h2'' hA
        have hself := StatsV2.tally_lookup_self
          (StatsV2.tally_switch m e.prev_pid) e.next_pid
        rw [hA] at hself
        have hx : bump_cs stats_zero = s2' := by
          simpa using hself.symm.trans h2''
        exact Or.inr hx.symm
      · rcases StatsV2.v2_tally_lookup_ne _ e.next_pid p hpb hn1 with hB | hB
        · have : (none : Option stats_t) = some s2' :=
            (hB.trans hA).symm.trans h2''
          simp at this
        · have : (none : Option stats_t) = some s2' := hB.symm.trans h2''
          simp at this
  · intro h3 h3'
    by_cases hpp : p = pid
    · subst hpp
      have hself := StatsV2.pf_lookup_self m p ef
      rw [h3] at hself
      have hx : (if ef.error_code % 2 = 1 then bump_minor s3
          else bump_major s3) = s3' := by
        simpa using hself.symm.trans h3'
      by_cases hb : ef.error_code % 2 = 1
      · rw [if_pos hb] at hx
        exact hx ▸ mono_or_wrap_bump_minor s3
      · rw [if_neg hb] at hx
        exact hx ▸ mono_or_wrap_bump_major s3
    · rcases StatsV2.pf_lookup_ne m pid p ef hpp hn with hB | hB
      · have hx : s3 = s3' := by
          have := (hB.trans h3).symm.trans h3'
          simpa using this
        exact hx ▸ mono_or_wrap_refl s3
      · have : (none : Option stats_t) = some s3' := hB.symm.trans h3'
        simp at this

/-- Witness for the amended C8 at a one-entry table, pid 5, a self-switch
and a bit-0-set page fault. -/
theorem C8_amended_witness :
    mono_or_wrap ⟨1, 2, 3⟩ ⟨3, 2, 3⟩ ∧
    (mono_or_wrap ⟨1, 2, 3⟩ ⟨3, 2, 3⟩ ∨
      (⟨3, 2, 3⟩ : stats_t) = bump_cs stats_zero) ∧
    mono_or_wrap ⟨1, 2, 3⟩ ⟨1, 2, 4⟩ :=
  ⟨(C8_amended_monotone [(5, ⟨1, 2, 3⟩)] 5 5 ⟨5, 5⟩ ⟨0, 0, 0, 0, 0, 0, 1⟩
      ⟨1, 2, 3⟩ ⟨3, 2, 3⟩ ⟨1, 2, 3⟩ ⟨3, 2, 3⟩ ⟨1, 2, 3⟩ ⟨1, 2, 4⟩
      (by decide)).1 (by decide) (by decide),
    (C8_amended_monotone [(5, ⟨1, 2, 3⟩)] 5 5 ⟨5, 5⟩ ⟨0, 0, 0, 0, 0, 0, 1⟩
      ⟨1, 2, 3⟩ ⟨3, 2, 3⟩ ⟨1, 2, 3⟩ ⟨3, 2, 3⟩ ⟨1, 2, 3⟩ ⟨1, 2, 4⟩
      (by decide)).2.1 (by decide) (by decide),
    (C8_amended_monotone [(5, ⟨1, 2, 3⟩)] 5 5 ⟨5, 5⟩ ⟨0, 0, 0, 0, 0, 0, 1⟩
      ⟨1, 2, 3⟩ ⟨3, 2, 3⟩ ⟨1, 2, 3⟩ ⟨3, 2, 3⟩ ⟨1, 2, 3⟩ ⟨1, 2, 4⟩
      (by decide)).2.2 (by decide) (by decide)⟩

example :
    (Stats.count_context_switches [] (some ⟨10, 10⟩)).2 =
      [(10, ⟨2, 0, 0⟩)] := by decide

example :
    (StatsV2.count_page_faults [] 7 (some ⟨0, 0, 0, 0, 0, 0, 1⟩)).2 =
      [(7, ⟨0, 0, 1⟩)] := by decide

example :
    map_lookup (StatsV2.count_context_switches [(3, ⟨5, 0, 0⟩)]
      (some ⟨3, 4⟩)).2 3 = some ⟨6, 0, 0⟩ := by decide
